import Mathlib

/-!
Verification of the ephemeral registry and broadcast engine of the
penny_lane repository (`src/group_id.py`).

The core state is two module-level collections (group_id.py lines 34-37):
`owners`, a Python `set` of user ids, and `recent_groups`, a dict mapping a
group chat id to an absolute expiry timestamp, with `TTL = 300` seconds.
Timestamps (`time.time()` floats) are modelled as rationals; the two
`time.time()` samples of one handler run (at the prune, line 47, and at the
cache write, line 160) are modelled by the single call-time parameter
`now`, as in the specification's `Announce(chatID, now, ttl, deliver)`.

`prune_expired` (lines 45-52) deletes every `recent_groups` entry whose
expiry is `<= now`.  The `/bandaid` handler `bandaid_command` (lines 54-170)
first prunes, then either registers the calling user (private chat branch,
lines 66-81) or, in a group chat, announces the group id: if the chat id is
not in `recent_groups` it loops over `owners`, attempting for each owner a
primary send (animation when `success.gif` exists, otherwise a text
message), catching any failure and attempting a fallback text send whose
failure is also caught; `success_count` is incremented once per owner whose
primary or fallback send succeeded, and afterwards
`recent_groups[chat.id] = time.time() + TTL` records the announcement
(lines 99-165).  If the chat id is already present, nothing is delivered
and nothing is written (lines 166-170).

The delivery transport is external: it is modelled by an environment giving
each owner's primary and fallback send outcomes, and the engine records an
event trace so that theorems can speak about which delivery attempts were
made and in what order.
-/

namespace PennyLane

/-- Timestamps: Python `time.time()` floats, modelled as rationals. -/
abbrev Time := ℚ

/-- Telegram user id (element of the `owners` set, group_id.py line 35). -/
abbrev OwnerId := Int

/-- Telegram chat id (key of `recent_groups`, group_id.py line 36). -/
abbrev ChatId := Int

/-- `TTL = 300`, group_id.py line 37. -/
def TTL : Time := 300

/-- The `recent_groups` dict `{group_id: expiry_timestamp}` (group_id.py
line 36), modelled as an association list. -/
abbrev Cache := List (ChatId × Time)

/-- Python `chat.id in recent_groups` membership test. -/
def dictContains (rg : Cache) (c : ChatId) : Bool :=
  rg.any (fun p => p.1 == c)

/-- The expiry stored for `c`, if any (first entry with key `c`). -/
def dictGet (rg : Cache) (c : ChatId) : Option Time :=
  (rg.find? (fun p => p.1 == c)).map Prod.snd

/-- Python `recent_groups[c] = v`: overwrite the entry for `c` if present,
otherwise append a new one. -/
def dictSet (rg : Cache) (c : ChatId) (v : Time) : Cache :=
  if dictContains rg c then rg.map (fun p => if p.1 == c then (c, v) else p)
  else rg ++ [(c, v)]

/-- `prune_expired` (group_id.py lines 45-52): delete every entry with
`exp <= now`, keeping exactly those with `now < exp`. -/
def prune_expired (now : Time) (rg : Cache) : Cache :=
  rg.filter (fun p => !(decide (p.2 ≤ now)))

/-- Python `owners.add u` (group_id.py line 68): sets have no duplicates,
so an already-present id is a no-op. -/
def addOwner (u : OwnerId) (os : List OwnerId) : List OwnerId :=
  if os.contains u then os else os ++ [u]

/-- Outcomes of the external message transport for one `/bandaid` group
request: whether `success.gif` exists (group_id.py line 126) and, for each
owner, whether the primary send (lines 128-143) and the fallback text send
(lines 150-154) would succeed. -/
structure DeliverEnv where
  gifExists : Bool
  primaryOk : OwnerId → Bool
  fallbackOk : OwnerId → Bool

/-- Observable events of one announcement: the individual transport calls
of the delivery loop (with their outcome) and the final cache write. -/
inductive Event where
  | sendAnimation (owner : OwnerId) (ok : Bool)
  | sendMessagePrimary (owner : OwnerId) (ok : Bool)
  | sendMessageFallback (owner : OwnerId) (ok : Bool)
  | markAnnounced (c : ChatId) (expiry : Time)
deriving DecidableEq, Repr

/-- The owner a deliver-loop iteration is for: each iteration of the
`for owner_id in owners` loop (group_id.py line 113) opens with exactly one
primary send, so primary-send events identify deliver invocations. -/
def deliveredTo : Event → Option OwnerId
  | .sendAnimation r _ => some r
  | .sendMessagePrimary r _ => some r
  | .sendMessageFallback _ _ => none
  | .markAnnounced _ _ => none

/-- Whether an event is the `recent_groups[chat.id] = ...` write. -/
def isMark : Event → Bool
  | .markAnnounced _ _ => true
  | _ => false

/-- The primary send for one owner: `send_animation` when `success.gif`
exists, otherwise `send_message` (group_id.py lines 125-143). -/
def primaryEvent (env : DeliverEnv) (r : OwnerId) : Event :=
  if env.gifExists then .sendAnimation r (env.primaryOk r)
  else .sendMessagePrimary r (env.primaryOk r)

/-- One iteration of the delivery loop (group_id.py lines 113-157): try the
primary send and count a success; on failure try the fallback text send and
count a success; a second failure is only logged.  Returns the contribution
to `success_count` and the transport events. -/
def deliverOne (env : DeliverEnv) (r : OwnerId) : Nat × List Event :=
  if env.primaryOk r then (1, [primaryEvent env r])
  else if env.fallbackOk r then
    (1, [primaryEvent env r, .sendMessageFallback r true])
  else (0, [primaryEvent env r, .sendMessageFallback r false])

/-- The whole `for owner_id in owners` loop (group_id.py lines 112-157):
`success_count` and the concatenated event trace. -/
def fanout (env : DeliverEnv) : List OwnerId → Nat × List Event
  | [] => (0, [])
  | r :: rest =>
      ((deliverOne env r).1 + (fanout env rest).1,
       (deliverOne env r).2 ++ (fanout env rest).2)

/-- Result reported back by an announcement, spec §4.3. -/
structure AnnounceResult where
  delivered : Nat
  alreadyAnnounced : Bool
deriving DecidableEq, Repr

/-- The in-memory core state (group_id.py lines 34-36). -/
structure BotState where
  owners : List OwnerId
  recent_groups : Cache
deriving DecidableEq, Repr

/-- Full outcome of one group-chat `/bandaid` request: the reported result,
the new state and the event trace. -/
structure AnnounceOutput where
  result : AnnounceResult
  state : BotState
  trace : List Event
deriving DecidableEq, Repr

/-- The group-chat branch of `bandaid_command` (group_id.py lines 56 and
99-170): prune, then if the chat id is in `recent_groups` report the
duplicate without delivering or writing; otherwise run the delivery loop,
record `recent_groups[chat.id] = now + TTL`, and report the success count. -/
def announce (env : DeliverEnv) (now : Time) (c : ChatId) (st : BotState) :
    AnnounceOutput :=
  let rg := prune_expired now st.recent_groups
  if dictContains rg c then
    ⟨⟨0, true⟩, ⟨st.owners, rg⟩, []⟩
  else
    ⟨⟨(fanout env st.owners).1, false⟩,
     ⟨st.owners, dictSet rg c (now + TTL)⟩,
     (fanout env st.owners).2 ++ [Event.markAnnounced c (now + TTL)]⟩

/-- The private-chat branch of `bandaid_command` (group_id.py lines 56 and
66-81): prune, then `owners.add(user.id)`. -/
def registerOwner (now : Time) (u : OwnerId) (st : BotState) : BotState :=
  ⟨addOwner u st.owners, prune_expired now st.recent_groups⟩

/-!
Exception-level model.  The transport sends inside the delivery loop may
raise; `group_id.py` catches them with the nested `try`/`except` of lines
114-157.  To state that no exception escapes the handler, the loop is also
modelled in the `Except` monad, where a send is a fallible action and an
uncaught exception propagates through `bind`.
-/

/-- A transport send as a fallible action: raises unless `ok`. -/
def sendE (ok : Bool) : Except String Unit :=
  if ok then .ok () else .error "send failed"

/-- One delivery-loop iteration with the `try`/`except` structure of
group_id.py lines 113-157: the outer `except` catches a primary-send
failure and attempts the fallback send, whose failure the inner `except`
catches with only a log line (line 157). -/
def deliverOneE (env : DeliverEnv) (r : OwnerId) :
    Except String (Nat × List Event) :=
  match sendE (env.primaryOk r) with
  | .ok _ => .ok (1, [primaryEvent env r])
  | .error _ =>
      match sendE (env.fallbackOk r) with
      | .ok _ => .ok (1, [primaryEvent env r, .sendMessageFallback r true])
      | .error _ => .ok (0, [primaryEvent env r, .sendMessageFallback r false])

/-- The delivery loop in the `Except` monad: an uncaught exception in any
iteration would abort the remaining iterations. -/
def fanoutE (env : DeliverEnv) : List OwnerId → Except String (Nat × List Event)
  | [] => .ok (0, [])
  | r :: rest => do
      let x ← deliverOneE env r
      let y ← fanoutE env rest
      .ok (x.1 + y.1, x.2 ++ y.2)

/-- The group-chat branch of `bandaid_command` in the `Except` monad: an
exception escaping the delivery loop would abort the handler before the
cache write and surface to the caller as `.error`. -/
def announceE (env : DeliverEnv) (now : Time) (c : ChatId) (st : BotState) :
    Except String AnnounceOutput :=
  let rg := prune_expired now st.recent_groups
  if dictContains rg c then
    .ok ⟨⟨0, true⟩, ⟨st.owners, rg⟩, []⟩
  else do
    let x ← fanoutE env st.owners
    .ok ⟨⟨x.1, false⟩,
         ⟨st.owners, dictSet rg c (now + TTL)⟩,
         x.2 ++ [Event.markAnnounced c (now + TTL)]⟩

/-- A concrete transport where every send succeeds. -/
def envAllOk : DeliverEnv := ⟨true, fun _ => true, fun _ => true⟩

/-- A concrete transport where both sends fail for every owner except
owner `3`. -/
def envOnly3 : DeliverEnv := ⟨true, fun r => r == 3, fun _ => false⟩

/-!  Helper lemmas about the cache operations. -/

/-- Membership in the pruned cache: exactly the entries with `now < exp`
survive `prune_expired`. -/
theorem mem_prune_expired (now : Time) (rg : Cache) (p : ChatId × Time) :
    p ∈ prune_expired now rg ↔ p ∈ rg ∧ now < p.2 := by
  simp [prune_expired, List.mem_filter, not_le]

/-- Pruning never introduces a chat id that was absent. -/
theorem dictContains_prune_expired_false (now : Time) (rg : Cache) (c : ChatId)
    (h : dictContains rg c = false) :
    dictContains (prune_expired now rg) c = false := by
  simp only [dictContains, List.any_eq_false] at h ⊢
  intro p hp
  exact h p ((mem_prune_expired now rg p).mp hp).1

/-- A present chat id makes `dictContains` true. -/
theorem dictContains_of_dictGet (rg : Cache) (c : ChatId) (e : Time)
    (h : dictGet rg c = some e) : dictContains rg c = true := by
  simp only [dictGet, Option.map_eq_some'] at h
  obtain ⟨p, hp, -⟩ := h
  have := List.find?_some hp
  simp only [dictContains, List.any_eq_true]
  exact ⟨p, List.mem_of_find?_eq_some hp, this⟩

/-- Writing a fresh chat id appends, so its stored expiry is the written
one. -/
theorem dictGet_append_single (rg : Cache) (c : ChatId) (v : Time)
    (h : dictContains rg c = false) :
    dictGet (rg ++ [(c, v)]) c = some v := by
  induction rg with
  | nil => simp [dictGet, List.find?]
  | cons p rest ih =>
      simp only [dictContains, List.any_cons, Bool.or_eq_false_iff] at h
      simp only [dictGet, List.cons_append, List.find?]
      rw [h.1]
      exact ih h.2

/-- `dictSet` on a fresh chat id is an append. -/
theorem dictSet_of_not_contains (rg : Cache) (c : ChatId) (v : Time)
    (h : dictContains rg c = false) : dictSet rg c v = rg ++ [(c, v)] := by
  simp [dictSet, h]

/-- Pruning keeps the stored expiry of an unexpired chat id. -/
theorem dictGet_prune_expired (now : Time) (rg : Cache) (c : ChatId) (e : Time)
    (hget : dictGet rg c = some e) (hlt : now < e) :
    dictGet (prune_expired now rg) c = some e := by
  induction rg with
  | nil => simp [dictGet, List.find?] at hget
  | cons p rest ih =>
      simp only [dictGet, List.find?] at hget
      by_cases hc : p.1 == c
      · rw [hc] at hget
        simp only [Option.map_some'] at hget
        have he : p.2 = e := by exact Option.some.inj hget
        subst he
        have hkeep : (!(decide (p.2 ≤ now))) = true := by
          simp [not_le, hlt]
        simp only [prune_expired, List.filter_cons, hkeep, if_true, dictGet,
          List.find?, hc, Option.map_some']
      · rw [Bool.of_not_eq_true hc] at hget
        have ih2 := ih hget
        simp only [prune_expired, List.filter_cons]
        by_cases hkeep : (!(decide (p.2 ≤ now))) = true
        · simp only [hkeep, if_true, dictGet, List.find?, hc]
          exact ih2
        · simp only [Bool.not_eq_true] at hkeep
          simp only [hkeep, Bool.false_eq_true, if_false]
          exact ih2

/-!  Helper lemmas about the delivery loop. -/

/-- One iteration contributes `1` to `success_count` exactly when the
primary or the fallback send succeeds. -/
theorem deliverOne_fst (env : DeliverEnv) (r : OwnerId) :
    (deliverOne env r).1 = if env.primaryOk r || env.fallbackOk r then 1 else 0 := by
  by_cases h1 : env.primaryOk r
  · simp [deliverOne, h1]
  · by_cases h2 : env.fallbackOk r <;> simp [deliverOne, h1, h2]

/-- The primary send event of an iteration is addressed to its owner. -/
theorem deliveredTo_primaryEvent (env : DeliverEnv) (r : OwnerId) :
    deliveredTo (primaryEvent env r) = some r := by
  by_cases hg : env.gifExists <;> simp [primaryEvent, deliveredTo, hg]

/-- A fallback send is not the start of a new deliver invocation. -/
theorem deliveredTo_fallback (r : OwnerId) (b : Bool) :
    deliveredTo (.sendMessageFallback r b) = none := rfl

/-- Each iteration of the delivery loop is one deliver invocation for its
owner: its trace contains exactly one primary send, addressed to the owner. -/
theorem deliverOne_deliveredTo (env : DeliverEnv) (r : OwnerId) :
    (deliverOne env r).2.filterMap deliveredTo = [r] := by
  by_cases h1 : env.primaryOk r
  · simp [deliverOne, h1, List.filterMap_cons, deliveredTo_primaryEvent]
  · by_cases h2 : env.fallbackOk r <;>
      simp [deliverOne, h1, h2, List.filterMap_cons, deliveredTo_primaryEvent,
        deliveredTo_fallback]

/-- No iteration of the delivery loop writes the cache. -/
theorem deliverOne_no_mark (env : DeliverEnv) (r : OwnerId) :
    ∀ e ∈ (deliverOne env r).2, isMark e = false := by
  intro e he
  by_cases h1 : env.primaryOk r
  · simp only [deliverOne, h1, if_true, List.mem_singleton] at he
    subst he
    by_cases hg : env.gifExists <;> simp [primaryEvent, isMark, hg]
  · have hp : isMark (primaryEvent env r) = false := by
      by_cases hg : env.gifExists <;> simp [primaryEvent, isMark, hg]
    by_cases h2 : env.fallbackOk r <;>
      · simp only [deliverOne, h1, h2, Bool.false_eq_true, if_false, if_true,
          List.mem_cons, List.mem_singleton, List.not_mem_nil] at he
        rcases he with he | he | he
        · rw [he]; exact hp
        · rw [he]; rfl
        · cases he

/-- `success_count` after the loop is the sum of the per-owner
contributions. -/
theorem fanout_fst (env : DeliverEnv) (os : List OwnerId) :
    (fanout env os).1 = (os.map fun r => (deliverOne env r).1).sum := by
  induction os with
  | nil => rfl
  | cons r rest ih => simp [fanout, ih]

/-- The deliver invocations of the loop, in order, are exactly the owners
iterated over: each owner in the list gets exactly one deliver attempt. -/
theorem fanout_deliveredTo (env : DeliverEnv) (os : List OwnerId) :
    (fanout env os).2.filterMap deliveredTo = os := by
  induction os with
  | nil => rfl
  | cons r rest ih =>
      simp only [fanout, List.filterMap_append, deliverOne_deliveredTo, ih,
        List.singleton_append]

/-- The delivery loop never writes the cache. -/
theorem fanout_no_mark (env : DeliverEnv) (os : List OwnerId) :
    ∀ e ∈ (fanout env os).2, isMark e = false := by
  induction os with
  | nil => intro e he; cases he
  | cons r rest ih =>
      intro e he
      rcases List.mem_append.mp he with h | h
      · exact deliverOne_no_mark env r e h
      · exact ih e h

/-!  Helper lemmas about the two branches of `announce`. -/

/-- Suppressed branch: the chat id survives the prune, so nothing is
delivered and nothing is written. -/
theorem announce_of_contains (env : DeliverEnv) (now : Time) (c : ChatId)
    (st : BotState) (h : dictContains (prune_expired now st.recent_groups) c = true) :
    announce env now c st =
      ⟨⟨0, true⟩, ⟨st.owners, prune_expired now st.recent_groups⟩, []⟩ := by
  simp [announce, h]

/-- Fresh branch: the chat id is absent after the prune, so the delivery
loop runs and the expiry `now + TTL` is appended. -/
theorem announce_of_not_contains (env : DeliverEnv) (now : Time) (c : ChatId)
    (st : BotState) (h : dictContains (prune_expired now st.recent_groups) c = false) :
    announce env now c st =
      ⟨⟨(fanout env st.owners).1, false⟩,
       ⟨st.owners, prune_expired now st.recent_groups ++ [(c, now + TTL)]⟩,
       (fanout env st.owners).2 ++ [Event.markAnnounced c (now + TTL)]⟩ := by
  simp [announce, h, dictSet_of_not_contains _ _ _ h]

/-- The reported duplicate flag is exactly the post-prune membership test. -/
theorem announce_alreadyAnnounced (env : DeliverEnv) (now : Time) (c : ChatId)
    (st : BotState) :
    (announce env now c st).result.alreadyAnnounced =
      dictContains (prune_expired now st.recent_groups) c := by
  by_cases h : dictContains (prune_expired now st.recent_groups) c
  · rw [announce_of_contains env now c st h, h]
  · rw [announce_of_not_contains env now c st (Bool.of_not_eq_true h),
      Bool.of_not_eq_true h]

/-- A suppressed call still occurs only when the chat id is present, so a
fresh result means the chat id was absent after the prune. -/
theorem not_contains_of_fresh (env : DeliverEnv) (now : Time) (c : ChatId)
    (st : BotState) (h : (announce env now c st).result.alreadyAnnounced = false) :
    dictContains (prune_expired now st.recent_groups) c = false := by
  rw [← announce_alreadyAnnounced env now c st]
  exact h

/-- Suppression core: when the chat id is stored unexpired, an announcement
only prunes, delivers nothing, and keeps the stored expiry. -/
theorem announce_suppressed_core (env : DeliverEnv) (t1 : Time) (c : ChatId)
    (st1 : BotState) (e : Time)
    (hget : dictGet st1.recent_groups c = some e) (hlt : t1 < e) :
    announce env t1 c st1 =
      ⟨⟨0, true⟩, ⟨st1.owners, prune_expired t1 st1.recent_groups⟩, []⟩ ∧
    dictGet (prune_expired t1 st1.recent_groups) c = some e := by
  have h2 := dictGet_prune_expired t1 st1.recent_groups c e hget hlt
  exact ⟨announce_of_contains env t1 c st1 (dictContains_of_dictGet _ _ _ h2), h2⟩

/-- An id already in the `owners` set stays found after `addOwner`. -/
theorem contains_addOwner (u : OwnerId) (os : List OwnerId) :
    (addOwner u os).contains u = true := by
  by_cases h : u ∈ os <;> simp [addOwner, h]

/-- Python `set.add` is idempotent: adding a present element changes
nothing. -/
theorem addOwner_idem (u : OwnerId) (os : List OwnerId) :
    addOwner u (addOwner u os) = addOwner u os := by
  by_cases h : u ∈ os <;> simp [addOwner, h]

/-- The `Except`-level delivery iteration returns normally with the pure
iteration's value: both `except` clauses are catch-alls. -/
theorem deliverOneE_eq (env : DeliverEnv) (r : OwnerId) :
    deliverOneE env r = Except.ok (deliverOne env r) := by
  by_cases h1 : env.primaryOk r
  · simp [deliverOneE, deliverOne, sendE, h1]
  · by_cases h2 : env.fallbackOk r <;>
      simp [deliverOneE, deliverOne, sendE, h1, h2]

/-- The `Except`-level delivery loop returns normally with the pure loop's
value: no iteration lets an exception escape. -/
theorem fanoutE_eq (env : DeliverEnv) (os : List OwnerId) :
    fanoutE env os = Except.ok (fanout env os) := by
  induction os with
  | nil => rfl
  | cons r rest ih =>
      simp [fanoutE, fanout, deliverOneE_eq, ih, Bind.bind, Except.bind]

/-- Each owner contributes its success bit; the loop total is the length of
the list of owners whose primary or fallback send succeeded. -/
theorem sum_deliverOne_eq_filter (env : DeliverEnv) (os : List OwnerId) :
    (os.map fun r => (deliverOne env r).1).sum =
      (os.filter fun r => env.primaryOk r || env.fallbackOk r).length := by
  induction os with
  | nil => rfl
  | cons r rest ih =>
      rw [List.map_cons, List.sum_cons, deliverOne_fst]
      simp only [List.filter_cons]
      cases hb : env.primaryOk r || env.fallbackOk r
      · simp [hb, ih]
      · simp only [hb, if_true, List.length_cons, ih]
        omega

/-- Splitting a list by a predicate preserves its length. -/
theorem length_filter_add_length_filter_not (os : List OwnerId)
    (p : OwnerId → Bool) :
    (os.filter p).length + (os.filter fun r => !(p r)).length = os.length := by
  induction os with
  | nil => rfl
  | cons r rest ih =>
      by_cases h : p r <;> simp [List.filter_cons, h] <;> omega

/-- The loop total is at most the number of owners. -/
theorem sum_deliverOne_le_length (env : DeliverEnv) (os : List OwnerId) :
    (os.map fun r => (deliverOne env r).1).sum ≤ os.length := by
  induction os with
  | nil => exact Nat.le_refl 0
  | cons r rest ih =>
      have h1 : (deliverOne env r).1 ≤ 1 := by
        rw [deliverOne_fst]
        by_cases h : env.primaryOk r || env.fallbackOk r <;> simp [h]
      simp only [List.map_cons, List.sum_cons, List.length_cons]
      omega

/-!  The claims. -/

/-- C7.  Registration idempotence: for every principal and every state,
running the private-chat registration branch twice leaves the `owners` set,
and hence `Count()`, exactly as after the first run; registration is a
total operation with no failure path. -/
theorem register_idempotent (t0 t1 : Time) (u : OwnerId) (st : BotState) :
    (registerOwner t1 u (registerOwner t0 u st)).owners =
      (registerOwner t0 u st).owners ∧
    (registerOwner t1 u (registerOwner t0 u st)).owners.length =
      (registerOwner t0 u st).owners.length := by
  have h : addOwner u (addOwner u st.owners) = addOwner u st.owners :=
    addOwner_idem u st.owners
  exact ⟨h, by simp only [registerOwner, h]⟩

/-- C10.  Cross-component frame: an announcement (suppressed or fresh)
never changes the `owners` registry, and the registration branch touches
`recent_groups` only through the lazy prune of already-expired entries. -/
theorem announce_register_frame (env : DeliverEnv) (t : Time) (c : ChatId)
    (u : OwnerId) (st : BotState) :
    (announce env t c st).state.owners = st.owners ∧
    (registerOwner t u st).recent_groups = prune_expired t st.recent_groups := by
  refine ⟨?_, rfl⟩
  by_cases h : dictContains (prune_expired t st.recent_groups) c
  · rw [announce_of_contains env t c st h]
  · rw [announce_of_not_contains env t c st (Bool.of_not_eq_true h)]

/-- C8.  No error escapes the core: the `Except`-level model of the group
branch, in which an uncaught send exception would surface as `.error`,
always returns `.ok` with the pure model's value; a duplicate announcement
is the defined value `alreadyAnnounced = true` (the flag equals the
post-prune membership test), and an empty recipient set completes normally
with `delivered = 0`. -/
theorem announce_no_error (env : DeliverEnv) (t : Time) (c : ChatId)
    (st : BotState) :
    announceE env t c st = Except.ok (announce env t c st) ∧
    (announce env t c st).result.alreadyAnnounced =
      dictContains (prune_expired t st.recent_groups) c ∧
    (announce env t c ⟨[], st.recent_groups⟩).result.delivered = 0 := by
  refine ⟨?_, announce_alreadyAnnounced env t c st, ?_⟩
  · by_cases h : dictContains (prune_expired t st.recent_groups) c
    · simp [announceE, announce, h]
    · simp [announceE, announce, h, fanoutE_eq, Bind.bind, Except.bind]
  · by_cases h : dictContains (prune_expired t st.recent_groups) c
    · rw [announce_of_contains env t c ⟨[], st.recent_groups⟩ h]
    · rw [announce_of_not_contains env t c ⟨[], st.recent_groups⟩
        (Bool.of_not_eq_true h)]
      rfl

/-- C9.  Delivered count bounded by the snapshot: the returned count is the
sum of per-owner contributions (zero when suppressed), every owner
contributes at most one even when the text fallback runs after a primary
failure, and the count never exceeds the number of owners. -/
theorem announce_delivered_bounded (env : DeliverEnv) (t : Time) (c : ChatId)
    (st : BotState) :
    (announce env t c st).result.delivered =
      (if dictContains (prune_expired t st.recent_groups) c then 0
       else (st.owners.map fun r => (deliverOne env r).1).sum) ∧
    (∀ r : OwnerId, (deliverOne env r).1 ≤ 1) ∧
    (announce env t c st).result.delivered ≤ st.owners.length := by
  have hr : ∀ r : OwnerId, (deliverOne env r).1 ≤ 1 := by
    intro r
    rw [deliverOne_fst]
    by_cases h : env.primaryOk r || env.fallbackOk r <;> simp [h]
  by_cases h : dictContains (prune_expired t st.recent_groups) c
  · rw [announce_of_contains env t c st h]
    exact ⟨by simp [h], hr, by simp⟩
  · rw [announce_of_not_contains env t c st (Bool.of_not_eq_true h)]
    refine ⟨by simp [h, fanout_fst], hr, ?_⟩
    simpa [fanout_fst] using sum_deliverOne_le_length env st.owners

/-- C1.  Idempotent suppression: after an announcement for chat `c`
(whatever its outcome) stored expiry `e` for `c`, a second announcement at
any time before `e` has passed reports `{delivered := 0,
alreadyAnnounced := true}`, performs no delivery attempt (empty trace),
and leaves the stored expiry of `c` unchanged — the window is not
extended. -/
theorem announce_idempotent_suppression (env0 env1 : DeliverEnv)
    (t0 t1 : Time) (c : ChatId) (st : BotState) (e : Time)
    (hget : dictGet (announce env0 t0 c st).state.recent_groups c = some e)
    (hlt : t1 < e) :
    (announce env1 t1 c (announce env0 t0 c st).state).result = ⟨0, true⟩ ∧
    (announce env1 t1 c (announce env0 t0 c st).state).trace = [] ∧
    dictGet (announce env1 t1 c (announce env0 t0 c st).state).state.recent_groups c
      = some e := by
  obtain ⟨heq, hkeep⟩ :=
    announce_suppressed_core env1 t1 c (announce env0 t0 c st).state e hget hlt
  rw [heq]
  exact ⟨rfl, rfl, hkeep⟩

/-- Witness for C1, on owners `{7}`, chat `5`, first call at `t = 0`
(storing expiry `300`), second call at `t = 100`. -/
theorem announce_idempotent_suppression_witness :
    (announce envAllOk 100 5 (announce envAllOk 0 5 ⟨[7], []⟩).state).result
      = ⟨0, true⟩ ∧
    (announce envAllOk 100 5 (announce envAllOk 0 5 ⟨[7], []⟩).state).trace = [] ∧
    dictGet (announce envAllOk 100 5
        (announce envAllOk 0 5 ⟨[7], []⟩).state).state.recent_groups 5
      = some 300 :=
  announce_idempotent_suppression envAllOk envAllOk 0 100 5 ⟨[7], []⟩ 300
    (by simp [announce, dictGet, dictSet, dictContains, prune_expired, TTL])
    (by decide)

/-- C2.  Fan-out exactly once: for a chat id not in the cache and the
owners snapshot (a set, hence without duplicates), the delivery loop opens
exactly one deliver invocation per owner — the invocations listed by the
trace are exactly the owners, their number is the snapshot size, and no
owner (in particular no owner whose delivery failed) is attempted twice. -/
theorem announce_fanout_exactly_once (env : DeliverEnv) (t : Time)
    (c : ChatId) (st : BotState)
    (hnew : dictContains st.recent_groups c = false)
    (hnodup : st.owners.Nodup) :
    (announce env t c st).trace.filterMap deliveredTo = st.owners ∧
    ((announce env t c st).trace.filterMap deliveredTo).length =
      st.owners.length ∧
    ∀ r : OwnerId,
      ((announce env t c st).trace.filterMap deliveredTo).count r =
        if r ∈ st.owners then 1 else 0 := by
  have h := dictContains_prune_expired_false t st.recent_groups c hnew
  have htr : (announce env t c st).trace.filterMap deliveredTo = st.owners := by
    rw [announce_of_not_contains env t c st h]
    show ((fanout env st.owners).2 ++
      [Event.markAnnounced c (t + TTL)]).filterMap deliveredTo = st.owners
    rw [List.filterMap_append, fanout_deliveredTo]
    simp [deliveredTo]
  refine ⟨htr, by rw [htr], ?_⟩
  intro r
  rw [htr]
  exact List.count_eq_of_nodup hnodup

/-- Witness for C2, on owners `{3, 4}` and fresh chat `9`. -/
theorem announce_fanout_exactly_once_witness :
    (announce envAllOk 0 9 ⟨[3, 4], []⟩).trace.filterMap deliveredTo = [3, 4] ∧
    ((announce envAllOk 0 9 ⟨[3, 4], []⟩).trace.filterMap deliveredTo).count 3 =
      if (3 : OwnerId) ∈ [(3 : OwnerId), 4] then 1 else 0 :=
  ⟨(announce_fanout_exactly_once envAllOk 0 9 ⟨[3, 4], []⟩ (by decide)
      (by decide)).1,
   (announce_fanout_exactly_once envAllOk 0 9 ⟨[3, 4], []⟩ (by decide)
      (by decide)).2.2 3⟩

/-- Pruning distributes over concatenated caches. -/
theorem prune_expired_append (now : Time) (a b : Cache) :
    prune_expired now (a ++ b) = prune_expired now a ++ prune_expired now b := by
  simp [prune_expired, List.filter_append]

/-- C3.  Expiry semantics: `prune_expired` keeps exactly the entries with
`now < expiry` (so it removes exactly those with `expiry ≤ now`); and after
a fresh announcement of `c` at `t0`, an announcement at `t0 + TTL + eps`
with `eps > 0` finds `c` absent, reports `alreadyAnnounced = false`, and
attempts delivery to every owner again. -/
theorem prune_exact_and_reannounce_after_expiry (env0 env1 : DeliverEnv)
    (t0 eps : Time) (c : ChatId) (st : BotState)
    (hfresh : (announce env0 t0 c st).result.alreadyAnnounced = false)
    (heps : 0 < eps) :
    (∀ (now : Time) (rg : Cache) (p : ChatId × Time),
        p ∈ prune_expired now rg ↔ p ∈ rg ∧ now < p.2) ∧
    (announce env1 (t0 + TTL + eps) c
        (announce env0 t0 c st).state).result.alreadyAnnounced = false ∧
    (announce env1 (t0 + TTL + eps) c
        (announce env0 t0 c st).state).trace.filterMap deliveredTo =
      st.owners := by
  have h0 := not_contains_of_fresh env0 t0 c st hfresh
  have hstate : (announce env0 t0 c st).state =
      ⟨st.owners, prune_expired t0 st.recent_groups ++ [(c, t0 + TTL)]⟩ := by
    rw [announce_of_not_contains env0 t0 c st h0]
  have hle : t0 + TTL ≤ t0 + TTL + eps := by linarith
  have hsingle : prune_expired (t0 + TTL + eps) [(c, t0 + TTL)] = [] := by
    simp [prune_expired, hle]
  have hc2 : dictContains (prune_expired (t0 + TTL + eps)
      (prune_expired t0 st.recent_groups ++ [(c, t0 + TTL)])) c = false := by
    rw [prune_expired_append, hsingle, List.append_nil]
    exact dictContains_prune_expired_false _ _ c h0
  have hsecond := announce_of_not_contains env1 (t0 + TTL + eps) c
    ⟨st.owners, prune_expired t0 st.recent_groups ++ [(c, t0 + TTL)]⟩ hc2
  refine ⟨fun now rg p => mem_prune_expired now rg p, ?_, ?_⟩
  · rw [hstate, hsecond]
  · rw [hstate, hsecond]
    show ((fanout env1 st.owners).2 ++
      [Event.markAnnounced c (t0 + TTL + eps + TTL)]).filterMap deliveredTo =
        st.owners
    rw [List.filterMap_append, fanout_deliveredTo]
    simp [deliveredTo]

/-- Witness for C3: prune characterisation at a concrete entry, and chat
`5` announced at `t = 0` is treated as new again at `t = 301`. -/
theorem prune_exact_and_reannounce_after_expiry_witness :
    (((5 : ChatId), (7 : Time)) ∈ prune_expired 5 [((5 : ChatId), (7 : Time))] ↔
      ((5 : ChatId), (7 : Time)) ∈ [((5 : ChatId), (7 : Time))] ∧
        (5 : Time) < 7) ∧
    (announce envAllOk (0 + TTL + 1) 5
        (announce envAllOk 0 5 ⟨[7], []⟩).state).result.alreadyAnnounced =
      false :=
  ⟨(prune_exact_and_reannounce_after_expiry envAllOk envAllOk 0 1 5 ⟨[7], []⟩
      rfl (by decide)).1 5 [(5, 7)] (5, 7),
   (prune_exact_and_reannounce_after_expiry envAllOk envAllOk 0 1 5 ⟨[7], []⟩
      rfl (by decide)).2.1⟩

/-- C4.  Partial-failure resilience: on a fresh chat id with `n` owners of
which `k` fail both sends, the call reports `delivered = n - k`, completes
with `alreadyAnnounced = false` (failures are not surfaced), and still
records the chat with expiry `t + TTL`. -/
theorem announce_partial_failure (env : DeliverEnv) (t : Time) (c : ChatId)
    (st : BotState)
    (hfresh : (announce env t c st).result.alreadyAnnounced = false) :
    (announce env t c st).result.delivered =
      st.owners.length -
        (st.owners.filter fun r =>
          !(env.primaryOk r || env.fallbackOk r)).length ∧
    (announce env t c st).result.alreadyAnnounced = false ∧
    dictGet (announce env t c st).state.recent_groups c = some (t + TTL) := by
  have h0 := not_contains_of_fresh env t c st hfresh
  have hd : (announce env t c st).result.delivered = (fanout env st.owners).1 := by
    rw [announce_of_not_contains env t c st h0]
  have hg : dictGet (announce env t c st).state.recent_groups c =
      dictGet (prune_expired t st.recent_groups ++ [(c, t + TTL)]) c := by
    rw [announce_of_not_contains env t c st h0]
  refine ⟨?_, hfresh, ?_⟩
  · rw [hd, fanout_fst, sum_deliverOne_eq_filter]
    have hsplit := length_filter_add_length_filter_not st.owners
      (fun r => env.primaryOk r || env.fallbackOk r)
    omega
  · rw [hg]
    exact dictGet_append_single _ c (t + TTL) h0

/-- Witness for C4: owners `{3, 4}` where only owner `3`'s primary send
succeeds, so one of two deliveries fails and `delivered = 2 - 1`. -/
theorem announce_partial_failure_witness :
    (announce envOnly3 0 9 ⟨[3, 4], []⟩).result.delivered =
      ([3, 4] : List OwnerId).length -
        (([3, 4] : List OwnerId).filter fun r =>
          !(envOnly3.primaryOk r || envOnly3.fallbackOk r)).length ∧
    (announce envOnly3 0 9 ⟨[3, 4], []⟩).result.alreadyAnnounced = false ∧
    dictGet (announce envOnly3 0 9 ⟨[3, 4], []⟩).state.recent_groups 9 =
      some (0 + TTL) :=
  announce_partial_failure envOnly3 0 9 ⟨[3, 4], []⟩ rfl

/-- C5.  Marking is unconditional and last: on a fresh chat id the cache
write is the final event of the trace, after every delivery attempt has
settled and regardless of outcomes; with an empty owners snapshot the call
still reports `{delivered := 0, alreadyAnnounced := false}` and still marks
the chat, so a later announcement within the window is suppressed. -/
theorem announce_marks_unconditional_and_last (env env1 : DeliverEnv)
    (t t1 : Time) (c : ChatId) (st : BotState)
    (hfresh : (announce env t c st).result.alreadyAnnounced = false) :
    (announce env t c st).trace.getLast? =
      some (Event.markAnnounced c (t + TTL)) ∧
    (∀ e ∈ (announce env t c st).trace.dropLast, isMark e = false) ∧
    (st.owners = [] → (announce env t c st).result = ⟨0, false⟩) ∧
    (st.owners = [] → t ≤ t1 → t1 < t + TTL →
      (announce env1 t1 c (announce env t c st).state).result = ⟨0, true⟩) := by
  have h0 := not_contains_of_fresh env t c st hfresh
  have htr : (announce env t c st).trace =
      (fanout env st.owners).2 ++ [Event.markAnnounced c (t + TTL)] := by
    rw [announce_of_not_contains env t c st h0]
  have hdl : ((fanout env st.owners).2 ++
      [Event.markAnnounced c (t + TTL)]).dropLast = (fanout env st.owners).2 := by
    simp [List.dropLast_concat]
  refine ⟨?_, ?_, ?_, ?_⟩
  · rw [htr]
    simp [List.getLast?_concat]
  · rw [htr, hdl]
    exact fanout_no_mark env st.owners
  · intro hemp
    have hres : (announce env t c st).result = ⟨(fanout env st.owners).1, false⟩ := by
      rw [announce_of_not_contains env t c st h0]
    rw [hres, hemp]
    rfl
  · intro hemp _hle hlt
    have hget : dictGet (announce env t c st).state.recent_groups c =
        some (t + TTL) := by
      have hg : (announce env t c st).state.recent_groups =
          prune_expired t st.recent_groups ++ [(c, t + TTL)] := by
        rw [announce_of_not_contains env t c st h0]
      rw [hg]
      exact dictGet_append_single _ c (t + TTL) h0
    obtain ⟨heq, -⟩ := announce_suppressed_core env1 t1 c
      (announce env t c st).state (t + TTL) hget hlt
    rw [heq]

/-- Witness for C5: empty owners set, chat `2` announced at `t = 0` and
suppressed at `t = 100`. -/
theorem announce_marks_unconditional_and_last_witness :
    (announce envAllOk 0 2 ⟨[], []⟩).trace.getLast? =
      some (Event.markAnnounced 2 (0 + TTL)) ∧
    (announce envAllOk 0 2 ⟨[], []⟩).result = ⟨0, false⟩ ∧
    (announce envAllOk 100 2 (announce envAllOk 0 2 ⟨[], []⟩).state).result =
      ⟨0, true⟩ :=
  ⟨(announce_marks_unconditional_and_last envAllOk envAllOk 0 100 2 ⟨[], []⟩
      rfl).1,
   (announce_marks_unconditional_and_last envAllOk envAllOk 0 100 2 ⟨[], []⟩
      rfl).2.2.1 rfl,
   (announce_marks_unconditional_and_last envAllOk envAllOk 0 100 2 ⟨[], []⟩
      rfl).2.2.2 rfl (by decide) (by rw [zero_add]; decide)⟩

end PennyLane
